import Mathlib

/-!
Verification development for the whatdotheyknow-app signal-collection layer
(src/utils/privacy.ts).  The JavaScript/TypeScript functions are shallowly
embedded as Lean definitions; machine integers use Int with explicit
truncation to the 32-bit signed range where the source relies on JS
bitwise-operator overflow semantics.
-/

/-- JS ToInt32: reduce an integer to the 32-bit signed two's-complement range,
as performed by the bitwise operators `<<` and `&` in `hashString`. -/
def toInt32 (n : Int) : Int :=
  let m := n % 4294967296
  if m < 2147483648 then m else m - 4294967296

/-- One loop iteration of `hashString`:
`hash = ((hash << 5) - hash) + char; hash = hash & hash;`.
`hash << 5` wraps `hash * 32` to int32; the outer `hash & hash` wraps the sum. -/
def hashStep (hash : Int) (c : Nat) : Int :=
  toInt32 (toInt32 (hash * 32) - hash + c)

/-- `hashString` from src/utils/privacy.ts, on the list of UTF-16 char codes:
fold `hashStep` from 0, then `Math.abs(hash).toString(16)` (lowercase hex). -/
def hashString (codes : List Nat) : String :=
  (Nat.toDigits 16 (codes.foldl hashStep 0).natAbs).asString

/-- The fold step as the spec describes it: `hash*31 + charCode`, wrapped to
the 32-bit signed range at each step. -/
def specHashStep (hash : Int) (c : Nat) : Int :=
  toInt32 (hash * 31 + c)

theorem toInt32_congr (a b : Int) (h : a % 4294967296 = b % 4294967296) :
    toInt32 a = toInt32 b := by
  simp only [toInt32, h]

theorem hashStep_eq_spec (h : Int) (c : Nat) : hashStep h c = specHashStep h c := by
  unfold hashStep specHashStep
  apply toInt32_congr
  simp only [toInt32]
  split <;> omega

theorem hashStep_fun_eq : hashStep = specHashStep := by
  funext a b
  exact hashStep_eq_spec a b

/-- Claim C1: for every string (list of char codes) s, `hashString s` is the
lowercase-hexadecimal rendering of the absolute value of the fold that starts
at 0 and sets `hash := hash*31 + c` truncated to the 32-bit signed range at
each step; the rendered value is the absolute value of an integer (hence
non-negative), and `hashString ""` is the fixed constant "0". -/
theorem claimC1_hashString (s : List Nat) :
    hashString s = (Nat.toDigits 16 (s.foldl specHashStep 0).natAbs).asString ∧
    hashString [] = "0" := by
  constructor
  · unfold hashString
    rw [hashStep_fun_eq]
  · rfl

/-!
JSON value model for the geolocation provider bodies.  The parse mappers in
`getIPInfo` run on arbitrary runtime JSON values (the TS `as` casts do not
convert), so the normalized record fields are modelled as JSON values too.
JS `undefined` (absent property) is identified with `null`: the two are
indistinguishable to every operation the source performs on them
(truthiness tests, `||` defaulting, `?.` chaining, `!==` with a string).
-/

inductive JVal where
  | null
  | bool (b : Bool)
  | num (n : Int)
  | str (s : String)
  | obj (fields : List (String × JVal))

/-- JS truthiness of a JSON value (`undefined`/`null`, `false`, `0` and `""`
are falsy; every object is truthy). -/
def jsTruthy : JVal → Bool
  | JVal.null => false
  | JVal.bool b => b
  | JVal.num n => n != 0
  | JVal.str s => s != ""
  | JVal.obj _ => true

/-- Property read `data.k` on an object body (absent key gives undefined). -/
def jField (fields : List (String × JVal)) (k : String) : JVal :=
  match fields.find? (fun p => p.1 == k) with
  | some p => p.2
  | none => JVal.null

/-- JS `v || d`. -/
def jOr (v d : JVal) : JVal :=
  if jsTruthy v then v else d

/-- JS `(v)?.k`: undefined when `v` is nullish or a primitive, property read
when `v` is an object. -/
def jChain (v : JVal) (k : String) : JVal :=
  match v with
  | JVal.obj fields => jField fields k
  | _ => JVal.null

/-- Normalized geolocation record (`IPInfo` in src/utils/privacy.ts); fields
hold the runtime JSON values the mappers produce. -/
structure IPInfo where
  ip : JVal
  city : JVal
  country : JVal
  region : JVal
  isp : JVal
  timezone : JVal
  latitude : JVal
  longitude : JVal

/-- Mapper of the `https://ipapi.co/json/` provider. -/
def parseIpapiCo (data : List (String × JVal)) : IPInfo :=
  { ip := jOr (jField data "ip") (JVal.str "Unknown"),
    city := jOr (jField data "city") (JVal.str "Unknown"),
    country := jOr (jField data "country_name") (JVal.str "Unknown"),
    region := jOr (jField data "region") (JVal.str "Unknown"),
    isp := jOr (jField data "org") (JVal.str "Unknown"),
    timezone := jOr (jField data "timezone") (JVal.str "Unknown"),
    latitude := jOr (jField data "latitude") (JVal.num 0),
    longitude := jOr (jField data "longitude") (JVal.num 0) }

/-- Mapper of the `https://freeipapi.com/api/json` provider (identical in the
current and the older version of the file). -/
def parseFreeipapi (data : List (String × JVal)) : IPInfo :=
  { ip := jOr (jField data "ipAddress") (JVal.str "Unknown"),
    city := jOr (jField data "cityName") (JVal.str "Unknown"),
    country := jOr (jField data "countryName") (JVal.str "Unknown"),
    region := jOr (jField data "regionName") (JVal.str "Unknown"),
    isp := if jsTruthy (jField data "isProxy") then JVal.str "Proxy/VPN Detected"
           else JVal.str "Unknown",
    timezone := jOr (jField data "timeZone") (JVal.str "Unknown"),
    latitude := jOr (jField data "latitude") (JVal.num 0),
    longitude := jOr (jField data "longitude") (JVal.num 0) }

/-- Mapper of the `https://ipwho.is/` provider. -/
def parseIpwho (data : List (String × JVal)) : IPInfo :=
  { ip := jOr (jField data "ip") (JVal.str "Unknown"),
    city := jOr (jField data "city") (JVal.str "Unknown"),
    country := jOr (jField data "country") (JVal.str "Unknown"),
    region := jOr (jField data "region") (JVal.str "Unknown"),
    isp := jOr (jChain (jField data "connection") "isp") (JVal.str "Unknown"),
    timezone := jOr (jChain (jField data "timezone") "id") (JVal.str "Unknown"),
    latitude := jOr (jField data "latitude") (JVal.num 0),
    longitude := jOr (jField data "longitude") (JVal.num 0) }

/-- Mapper of the `http://ip-api.com/json` provider (older version only). -/
def parseIpApiCom (data : List (String × JVal)) : IPInfo :=
  { ip := jOr (jField data "query") (JVal.str "Unknown"),
    city := jOr (jField data "city") (JVal.str "Unknown"),
    country := jOr (jField data "country") (JVal.str "Unknown"),
    region := jOr (jField data "regionName") (JVal.str "Unknown"),
    isp := jOr (jField data "isp") (JVal.str "Unknown"),
    timezone := jOr (jField data "timezone") (JVal.str "Unknown"),
    latitude := jOr (jField data "lat") (JVal.num 0),
    longitude := jOr (jField data "lon") (JVal.num 0) }

/-- Outcome of one `fetch` of a provider URL: transport error (throw),
non-ok status, or an ok response whose JSON body is the given object. -/
inductive FetchOutcome where
  | err
  | notOk
  | ok (body : List (String × JVal))

structure GeoApi where
  url : String
  parse : List (String × JVal) → IPInfo

/-- The provider table of the current `getIPInfo`, in source order. -/
def apis : List GeoApi :=
  [⟨"https://ipapi.co/json/", parseIpapiCo⟩,
   ⟨"https://freeipapi.com/api/json", parseFreeipapi⟩,
   ⟨"https://ipwho.is/", parseIpwho⟩]

/-- The acceptance check `result.ip && result.ip !== 'Unknown'`. -/
def acceptIP (r : IPInfo) : Bool :=
  jsTruthy r.ip && !(match r.ip with
                     | JVal.str s => s == "Unknown"
                     | _ => false)

/-- The provider loop of the current `getIPInfo`: on a transport error or a
non-ok response move on; on an ok response parse, and return the record only
if it passes `acceptIP`, otherwise move on. -/
def tryApis (env : String → FetchOutcome) : List GeoApi → Option IPInfo
  | [] => none
  | api :: rest =>
    match env api.url with
    | FetchOutcome.err => tryApis env rest
    | FetchOutcome.notOk => tryApis env rest
    | FetchOutcome.ok body =>
      let result := api.parse body
      if acceptIP result then some result else tryApis env rest

/-- `getIPInfo` from src/utils/privacy.ts, over an environment mapping each
request URL to its outcome. -/
def getIPInfo (env : String → FetchOutcome) : Option IPInfo :=
  tryApis env apis

/-- `getIPInfo` from the older version of the file (src/unnamed/part_001):
try freeipapi; only when that fetch throws does the catch block try
ip-api.com; a non-ok freeipapi response falls through to `return null`;
no acceptance check on the parsed record in either branch. -/
def getIPInfoOld (env : String → FetchOutcome) : Option IPInfo :=
  match env "https://freeipapi.com/api/json" with
  | FetchOutcome.ok body => some (parseFreeipapi body)
  | FetchOutcome.notOk => none
  | FetchOutcome.err =>
    match env "http://ip-api.com/json" with
    | FetchOutcome.ok body => some (parseIpApiCom body)
    | FetchOutcome.notOk => none
    | FetchOutcome.err => none

/-- A provider is rejected when its fetch throws, returns non-ok, or its
parsed record fails the ip acceptance check. -/
def providerRejects (env : String → FetchOutcome) (api : GeoApi) : Bool :=
  match env api.url with
  | FetchOutcome.err => true
  | FetchOutcome.notOk => true
  | FetchOutcome.ok body => !(acceptIP (api.parse body))

theorem tryApis_eq_none_iff (env : String → FetchOutcome) (l : List GeoApi) :
    tryApis env l = none ↔ ∀ api ∈ l, providerRejects env api = true := by
  induction l with
  | nil => simp [tryApis]
  | cons api rest ih =>
    simp only [tryApis, List.mem_cons]
    cases hu : env api.url with
    | err =>
      simp only [ih]
      constructor
      · intro h a ha
        rcases ha with rfl | ha
        · simp [providerRejects, hu]
        · exact h a ha
      · intro h a ha
        exact h a (Or.inr ha)
    | notOk =>
      simp only [ih]
      constructor
      · intro h a ha
        rcases ha with rfl | ha
        · simp [providerRejects, hu]
        · exact h a ha
      · intro h a ha
        exact h a (Or.inr ha)
    | ok body =>
      by_cases hacc : acceptIP (api.parse body) = true
      · simp only [hacc, if_pos rfl]
        constructor
        · intro h
          exact absurd h (by simp)
        · intro h
          have := h api (Or.inl rfl)
          simp [providerRejects, hu, hacc] at this
      · simp only [Bool.not_eq_true] at hacc
        simp only [hacc, Bool.false_eq_true, if_false, ih]
        constructor
        · intro h a ha
          rcases ha with rfl | ha
          · simp [providerRejects, hu, hacc]
          · exact h a ha
        · intro h a ha
          exact h a (Or.inr ha)

theorem tryApis_eq_some (env : String → FetchOutcome) (l : List GeoApi)
    (r : IPInfo) (h : tryApis env l = some r) :
    ∃ pre api suf body, l = pre ++ api :: suf ∧
      (∀ a ∈ pre, providerRejects env a = true) ∧
      env api.url = FetchOutcome.ok body ∧ r = api.parse body ∧
      acceptIP r = true := by
  induction l with
  | nil => simp [tryApis] at h
  | cons api rest ih =>
    simp only [tryApis] at h
    cases hu : env api.url with
    | err =>
      rw [hu] at h
      obtain ⟨pre, a, suf, body, hl, hpre, hok, hr, hacc⟩ := ih h
      refine ⟨api :: pre, a, suf, body, by rw [hl]; rfl, ?_, hok, hr, hacc⟩
      intro x hx
      rcases List.mem_cons.mp hx with rfl | hx
      · simp [providerRejects, hu]
      · exact hpre x hx
    | notOk =>
      rw [hu] at h
      obtain ⟨pre, a, suf, body, hl, hpre, hok, hr, hacc⟩ := ih h
      refine ⟨api :: pre, a, suf, body, by rw [hl]; rfl, ?_, hok, hr, hacc⟩
      intro x hx
      rcases List.mem_cons.mp hx with rfl | hx
      · simp [providerRejects, hu]
      · exact hpre x hx
    | ok body =>
      rw [hu] at h
      have h2 : (if acceptIP (api.parse body) = true then some (api.parse body)
                 else tryApis env rest) = some r := h
      by_cases hacc : acceptIP (api.parse body) = true
      · rw [if_pos hacc] at h2
        obtain rfl : api.parse body = r := by
          injection h2
        exact ⟨[], api, rest, body, rfl, by simp, hu, rfl, hacc⟩
      · simp only [Bool.not_eq_true] at hacc
        rw [if_neg (by simp [hacc])] at h2
        obtain ⟨pre, a, suf, body2, hl, hpre, hok, hr, hacc2⟩ := ih h2
        refine ⟨api :: pre, a, suf, body2, by rw [hl]; rfl, ?_, hok, hr, hacc2⟩
        intro x hx
        rcases List.mem_cons.mp hx with rfl | hx
        · simp [providerRejects, hu, hacc]
        · exact hpre x hx

/-- Claim C2: `getIPInfo` tries the configured providers strictly in list
order; a provider's normalized record is returned only if it is ok and its
ip field passes the acceptance check, with every earlier provider rejected
(transport error, non-ok, or unknown ip); it returns null exactly when every
provider is rejected. -/
theorem claimC2_getIPInfo (env : String → FetchOutcome) :
    (getIPInfo env = none ↔ ∀ api ∈ apis, providerRejects env api = true) ∧
    (∀ r, getIPInfo env = some r →
      ∃ pre api suf body, apis = pre ++ api :: suf ∧
        (∀ a ∈ pre, providerRejects env a = true) ∧
        env api.url = FetchOutcome.ok body ∧ r = api.parse body ∧
        acceptIP r = true) :=
  ⟨tryApis_eq_none_iff env apis, fun r h => tryApis_eq_some env apis r h⟩

/-- Environment in which every request throws. -/
def envAllErr : String → FetchOutcome := fun _ => FetchOutcome.err

theorem claimC2_witness : getIPInfo envAllErr = none :=
  (claimC2_getIPInfo envAllErr).1.mpr (fun _ _ => rfl)

/-- Environment separating the two `getIPInfo` versions: the shared
freeipapi URL answers ok with an empty JSON object, every other request
throws. -/
def envC10 : String → FetchOutcome := fun u =>
  if u = "https://freeipapi.com/api/json" then FetchOutcome.ok [] else FetchOutcome.err

/-- Claim C10 counterexample: on `envC10` the older version returns the
all-Unknown freeipapi record (it performs no ip acceptance check), while the
current version rejects that record and, with the other providers throwing,
returns null.  The two implementations are not observationally equivalent. -/
theorem claimC10_cex : getIPInfoOld envC10 ≠ getIPInfo envC10 := by
  intro h
  rw [show getIPInfoOld envC10 = some (parseFreeipapi []) from rfl,
      show getIPInfo envC10 = none from rfl] at h
  exact Option.noConfusion h

/-- Claim C10 amended: the two versions do agree on every environment in
which each request throws — both return null there. -/
theorem claimC10_amended (env : String → FetchOutcome)
    (h : ∀ u, env u = FetchOutcome.err) :
    getIPInfoOld env = none ∧ getIPInfo env = none := by
  constructor
  · simp [getIPInfoOld, h]
  · simp [getIPInfo, apis, tryApis, h]

theorem claimC10_witness : getIPInfoOld envAllErr = none ∧ getIPInfo envAllErr = none :=
  claimC10_amended envAllErr (fun _ => rfl)

/-!
WebRTC leak probe.  The asynchronous ICE gathering is embedded by its
observable inputs: whether the peer-connection capability exists, whether
connection setup succeeds (the catch path), and the list of candidate
strings delivered to `onicecandidate` before finalization (either the
end-of-candidates event or the 3s timeout finalizes; both compute the
result from the same accumulated state).
-/

structure WebRTCInfo where
  localIPs : List String
  publicIP : Option String
  leaking : Bool
deriving DecidableEq

/-- Leading-match test used to model `String.prototype.startsWith`. -/
def listIsLeading : List Char → List Char → Bool
  | [], _ => true
  | _ :: _, [] => false
  | p :: ps, c :: cs => p == c && listIsLeading ps cs

/-- JS `s.startsWith(p)`. -/
def strStarts (s p : String) : Bool :=
  listIsLeading p.toList s.toList

/-- Match the regex `(\d{1,3}\.){3}\d{1,3}` anchored at the head of the
character list: a group `\d{1,3}\.` succeeds exactly when the maximal digit
run has length 1..3 and is followed by '.', consuming run and dot. -/
def matchOctetDot (cs : List Char) : Option (List Char × List Char) :=
  let ds := cs.takeWhile Char.isDigit
  if ds.length = 0 ∨ 3 < ds.length then none
  else
    match cs.drop ds.length with
    | '.' :: rest => some (ds ++ ['.'], rest)
    | _ => none

/-- The final `\d{1,3}` of the pattern: greedily up to 3 leading digits. -/
def matchFinalDigits (cs : List Char) : Option (List Char) :=
  let ds := cs.takeWhile Char.isDigit
  if ds.length = 0 then none else some (ds.take 3)

/-- Full pattern match anchored at the head. -/
def matchIPv4At (cs : List Char) : Option (List Char) := do
  let (g1, r1) ← matchOctetDot cs
  let (g2, r2) ← matchOctetDot r1
  let (g3, r3) ← matchOctetDot r2
  let f ← matchFinalDigits r3
  pure (g1 ++ g2 ++ g3 ++ f)

/-- Leftmost match of the pattern, as
`candidate.match(/(\d{1,3}\.){3}\d{1,3}/)` finds it. -/
def findIPv4 : List Char → Option String
  | [] => none
  | c :: rest =>
    match matchIPv4At (c :: rest) with
    | some m => some m.asString
    | none => findIPv4 rest

def extractIPv4 (s : String) : Option String :=
  findIPv4 s.toList

/-- Mutable state of the gathering callback: the `ips` Set in insertion
order, and the `result.publicIP` field. -/
structure GatherState where
  ips : List String
  publicIP : Option String

/-- JS `Set.add`: append only when absent (insertion order preserved,
as `Array.from` later observes it). -/
def setAdd (l : List String) (x : String) : List String :=
  if x ∈ l then l else l ++ [x]

/-- The `onicecandidate` body for one candidate string. -/
def processCandidate (st : GatherState) (cand : String) : GatherState :=
  match extractIPv4 cand with
  | none => st
  | some ip =>
    if strStarts ip "192.168." || strStarts ip "10." || strStarts ip "172." then
      { st with ips := setAdd st.ips ip }
    else if !(strStarts ip "0.") then
      { ips := setAdd st.ips ip, publicIP := some ip }
    else st

/-- Finalization on either completion path:
`localIPs = Array.from(ips); leaking = ips.size > 0`. -/
def gatherResult (cands : List String) : WebRTCInfo :=
  let st := cands.foldl processCandidate { ips := [], publicIP := none }
  { localIPs := st.ips, publicIP := st.publicIP, leaking := decide (0 < st.ips.length) }

/-- `getWebRTCInfo` from src/utils/privacy.ts. -/
def getWebRTCInfo (hasRTC setupOk : Bool) (cands : List String) : WebRTCInfo :=
  if !hasRTC then { localIPs := [], publicIP := none, leaking := false }
  else if !setupOk then { localIPs := [], publicIP := none, leaking := false }
  else gatherResult cands

theorem setAdd_nodup (l : List String) (x : String) (h : l.Nodup) :
    (setAdd l x).Nodup := by
  unfold setAdd
  split
  · exact h
  · rename_i hx
    simp [List.nodup_append, h, hx]

theorem mem_setAdd_self (l : List String) (x : String) : x ∈ setAdd l x := by
  unfold setAdd
  split
  · assumption
  · simp

theorem mem_setAdd_of_mem (l : List String) (x y : String) (h : y ∈ l) :
    y ∈ setAdd l x := by
  unfold setAdd
  split
  · exact h
  · exact List.mem_append_left _ h

theorem processCandidate_nodup (st : GatherState) (cand : String)
    (h : st.ips.Nodup) : (processCandidate st cand).ips.Nodup := by
  unfold processCandidate
  cases extractIPv4 cand with
  | none => exact h
  | some ip =>
    simp only
    split
    · exact setAdd_nodup _ _ h
    · split
      · exact setAdd_nodup _ _ h
      · exact h

theorem gather_nodup (cands : List String) :
    ∀ st : GatherState, st.ips.Nodup → (cands.foldl processCandidate st).ips.Nodup := by
  induction cands with
  | nil => intro st h; exact h
  | cons c rest ih =>
    intro st h
    exact ih _ (processCandidate_nodup st c h)

theorem processCandidate_pub (st : GatherState) (cand : String)
    (h : ∀ p, st.publicIP = some p → p ∈ st.ips) :
    ∀ p, (processCandidate st cand).publicIP = some p →
      p ∈ (processCandidate st cand).ips := by
  unfold processCandidate
  cases extractIPv4 cand with
  | none => exact h
  | some ip =>
    simp only
    split
    · intro p hp
      exact mem_setAdd_of_mem _ _ _ (h p hp)
    · split
      · intro p hp
        obtain rfl : ip = p := by injection hp
        exact mem_setAdd_self _ _
      · exact h

theorem gather_pub (cands : List String) :
    ∀ st : GatherState, (∀ p, st.publicIP = some p → p ∈ st.ips) →
      ∀ p, (cands.foldl processCandidate st).publicIP = some p →
        p ∈ (cands.foldl processCandidate st).ips := by
  induction cands with
  | nil => intro st h; exact h
  | cons c rest ih =>
    intro st h
    exact ih _ (processCandidate_pub st c h)

/-- Claim C3: when the peer-connection capability is absent the result is
exactly `{localIPs: [], publicIP: null, leaking: false}`; in every result,
`leaking` is true iff `localIPs` is non-empty, and `localIPs` has no
duplicates. -/
theorem claimC3_getWebRTCInfo (hasRTC setupOk : Bool) (cands : List String) :
    (hasRTC = false →
      getWebRTCInfo hasRTC setupOk cands =
        { localIPs := [], publicIP := none, leaking := false }) ∧
    ((getWebRTCInfo hasRTC setupOk cands).leaking = true ↔
      (getWebRTCInfo hasRTC setupOk cands).localIPs ≠ []) ∧
    (getWebRTCInfo hasRTC setupOk cands).localIPs.Nodup := by
  refine ⟨fun h => by simp [getWebRTCInfo, h], ?_, ?_⟩
  · unfold getWebRTCInfo
    cases hasRTC with
    | false => simp
    | true =>
      cases setupOk with
      | false => simp
      | true =>
        simp only [Bool.not_true, Bool.false_eq_true, if_false, gatherResult]
        rw [decide_eq_true_iff]
        constructor
        · intro h
          exact List.ne_nil_of_length_pos h
        · intro h
          exact List.length_pos.mpr h
  · unfold getWebRTCInfo
    cases hasRTC with
    | false => simp
    | true =>
      cases setupOk with
      | false => simp
      | true =>
        simp only [Bool.not_true, Bool.false_eq_true, if_false, gatherResult]
        exact gather_nodup cands _ List.nodup_nil

theorem claimC3_witness :
    getWebRTCInfo false true ["candidate 8.8.8.8"] =
      { localIPs := [], publicIP := none, leaking := false } :=
  (claimC3_getWebRTCInfo false true ["candidate 8.8.8.8"]).1 rfl

/-- Claim C9: in every result of `getWebRTCInfo`, a non-null `publicIP` is
also an element of `localIPs` (the public branch adds the address to the
same set the local list is built from). -/
theorem claimC9_publicIP_mem (hasRTC setupOk : Bool) (cands : List String)
    (p : String) (h : (getWebRTCInfo hasRTC setupOk cands).publicIP = some p) :
    p ∈ (getWebRTCInfo hasRTC setupOk cands).localIPs := by
  unfold getWebRTCInfo at h ⊢
  cases hasRTC with
  | false => simp at h
  | true =>
    cases setupOk with
    | false => simp at h
    | true =>
      simp only [Bool.not_true, Bool.false_eq_true, if_false, gatherResult] at h ⊢
      exact gather_pub cands _ (fun q hq => by simp at hq) p h

theorem claimC9_witness :
    "8.8.8.8" ∈ (getWebRTCInfo true true ["a 8.8.8.8 b"]).localIPs :=
  claimC9_publicIP_mem true true ["a 8.8.8.8 b"] "8.8.8.8" (by decide)

/-!
Ad-blocker probe.  The environment records whether the DOM bait operations
throw (outer catch), the three bait-suppression observations, and whether
the no-cors HEAD fetch of the ad-script URL throws.  The probe's event
sequence is embedded as a trace to settle the temporal claim.
-/

structure AdBlockEnv where
  domThrows : Bool
  offsetHeightZero : Bool
  offsetParentNull : Bool
  displayNone : Bool
  fetchThrows : Bool

/-- `detectAdBlocker` from src/utils/privacy.ts: the bait boolean is
`offsetHeight === 0 || offsetParent === null || display === 'none'`; a
throwing ad-script fetch short-circuits to true; a throwing DOM operation
hits the outer catch and yields false. -/
def detectAdBlocker (e : AdBlockEnv) : Bool :=
  if e.domThrows then false
  else
    let blocked := e.offsetHeightZero || e.offsetParentNull || e.displayNone
    if e.fetchThrows then true else blocked

/-- Events of one `detectAdBlocker` run, in program order. -/
inductive AdEvent where
  | insertBait
  | awaitDelay (ms : Nat)
  | inspectBait
  | removeBait
  | fetchAd
  | ret (b : Bool)
deriving DecidableEq

/-- An event at which the async task suspends (awaits a timer or a fetch). -/
def suspends : AdEvent → Bool
  | AdEvent.awaitDelay _ => true
  | AdEvent.fetchAd => true
  | _ => false

/-- The event trace of `detectAdBlocker`: insert the bait, await the 100ms
settle timer, inspect, remove the bait, fetch the ad script, return. -/
def adBlockerTrace (e : AdBlockEnv) : List AdEvent :=
  if e.domThrows then [AdEvent.ret false]
  else
    let blocked := e.offsetHeightZero || e.offsetParentNull || e.displayNone
    [AdEvent.insertBait, AdEvent.awaitDelay 100, AdEvent.inspectBait,
     AdEvent.removeBait, AdEvent.fetchAd] ++
      (if e.fetchThrows then [AdEvent.ret true] else [AdEvent.ret blocked])

/-- No suspension event strictly between an insertion and a removal of the
bait element. -/
def noSuspBetween (tr : List AdEvent) : Prop :=
  ∀ i j k ev, i < j → j < k →
    tr.get? i = some AdEvent.insertBait → tr.get? k = some AdEvent.removeBait →
    tr.get? j = some ev → suspends ev = false

/-- Claim C4: if the ad-script fetch throws, `detectAdBlocker` returns true
regardless of the bait observations; if it succeeds, the function returns the
bait-suppression boolean. -/
theorem claimC4_detectAdBlocker (e : AdBlockEnv) (hd : e.domThrows = false) :
    (e.fetchThrows = true → detectAdBlocker e = true) ∧
    (e.fetchThrows = false →
      detectAdBlocker e = (e.offsetHeightZero || e.offsetParentNull || e.displayNone)) := by
  constructor
  · intro hf
    simp [detectAdBlocker, hd, hf]
  · intro hf
    simp [detectAdBlocker, hd, hf]

theorem claimC4_witness : detectAdBlocker ⟨false, false, false, false, true⟩ = true :=
  (claimC4_detectAdBlocker ⟨false, false, false, false, true⟩ rfl).1 rfl

/-- The plain run used as the concrete counterexample input for C6. -/
def adEnvPlain : AdBlockEnv := ⟨false, false, false, false, false⟩

/-- Claim C6 counterexample: in the trace of a normal run the 100ms timer
await sits strictly between inserting the bait element (index 0) and
removing it (index 3), so the probe does suspend between insertion and
removal. -/
theorem claimC6_cex : ¬ noSuspBetween (adBlockerTrace adEnvPlain) := by
  intro h
  have := h 0 1 3 (AdEvent.awaitDelay 100) (by decide) (by decide) rfl rfl rfl
  simp [suspends] at this

/-- Claim C6 amended: the bait element is created and removed within the same
invocation, but exactly one suspension point — the await of the 100ms settle
timer — occurs between inserting the bait element and removing it. -/
theorem claimC6_amended (e : AdBlockEnv) (hd : e.domThrows = false) :
    ∃ i k, i < k ∧
      (adBlockerTrace e).get? i = some AdEvent.insertBait ∧
      (adBlockerTrace e).get? k = some AdEvent.removeBait ∧
      (((adBlockerTrace e).drop (i + 1)).take (k - i - 1)).filter suspends =
        [AdEvent.awaitDelay 100] := by
  obtain ⟨dt, oh, op, dn, ft⟩ := e
  simp only at hd
  subst hd
  cases ft with
  | false => exact ⟨0, 3, by decide, rfl, rfl, rfl⟩
  | true => exact ⟨0, 3, by decide, rfl, rfl, rfl⟩

theorem claimC6_witness :
    ∃ i k, i < k ∧
      (adBlockerTrace adEnvPlain).get? i = some AdEvent.insertBait ∧
      (adBlockerTrace adEnvPlain).get? k = some AdEvent.removeBait ∧
      (((adBlockerTrace adEnvPlain).drop (i + 1)).take (k - i - 1)).filter suspends =
        [AdEvent.awaitDelay 100] :=
  claimC6_amended adEnvPlain rfl

/-!
Canvas fingerprint probe.  The rendering environment is its 2D-context
availability, whether any drawing/serialization step throws, and the data
URL the fixed drawing sequence serializes to.  Char codes are modelled by
code points (identical on the data-URL alphabet, which is ASCII).
-/

structure CanvasEnv where
  ctxAvailable : Bool
  renderThrows : Bool
  dataUrl : String

def codeUnits (s : String) : List Nat :=
  s.toList.map Char.toNat

/-- JS `s.substring(0, n)`. -/
def strTake (s : String) (n : Nat) : String :=
  (s.toList.take n).asString

/-- `getCanvasFingerprint` from src/utils/privacy.ts: no 2D context or any
throw gives "Not available"; otherwise hash the data URL and keep the first
16 characters. -/
def getCanvasFingerprint (e : CanvasEnv) : String :=
  if !e.ctxAvailable then "Not available"
  else if e.renderThrows then "Not available"
  else strTake (hashString (codeUnits e.dataUrl)) 16

theorem strTake_length (s : String) (n : Nat) : (strTake s n).length ≤ n := by
  show (s.toList.take n).length ≤ n
  rw [List.length_take]
  exact Nat.min_le_left _ _

/-- Claim C7: `getCanvasFingerprint` is deterministic for a fixed rendering
environment, its output is at most 16 characters long, and whenever no 2D
drawing context is obtained it returns "Not available". -/
theorem claimC7_getCanvasFingerprint (e : CanvasEnv) :
    getCanvasFingerprint e = getCanvasFingerprint e ∧
    (getCanvasFingerprint e).length ≤ 16 ∧
    (e.ctxAvailable = false → getCanvasFingerprint e = "Not available") := by
  refine ⟨rfl, ?_, fun h => by simp [getCanvasFingerprint, h]⟩
  unfold getCanvasFingerprint
  split
  · decide
  · split
    · decide
    · exact strTake_length _ 16

theorem claimC7_witness :
    getCanvasFingerprint ⟨false, false, "data:image/png;base64,AAAA"⟩ = "Not available" :=
  (claimC7_getCanvasFingerprint ⟨false, false, "data:image/png;base64,AAAA"⟩).2.2 rfl

/-!
Font detection probe.  The environment is the 2D-context availability and
the measured text width as a function of the string assigned to `ctx.font`
(deterministic within one run, as `measureText` is for a fixed context).
-/

structure FontEnv where
  ctxAvailable : Bool
  width : String → Int

def baseFonts : List String := ["monospace", "sans-serif", "serif"]

def testFonts : List String :=
  ["Arial", "Arial Black", "Comic Sans MS", "Courier New", "Georgia",
   "Impact", "Lucida Console", "Lucida Sans Unicode", "Palatino Linotype",
   "Tahoma", "Times New Roman", "Trebuchet MS", "Verdana", "MS Gothic",
   "MS PGothic", "MS UI Gothic", "Meiryo", "Yu Gothic", "Segoe UI",
   "Roboto", "Open Sans", "Helvetica", "Helvetica Neue", "Monaco",
   "Consolas", "Menlo", "Ubuntu", "Cantarell", "Fira Sans"]

/-- `detectFonts` from src/utils/privacy.ts: measure each baseline family at
72px, then keep each candidate whose width layered in front of some baseline
differs from that baseline's width. -/
def detectFonts (e : FontEnv) : List String :=
  if !e.ctxAvailable then []
  else
    let getWidth := fun (font : String) => e.width ("72px " ++ font)
    let baseWidths := baseFonts.map getWidth
    testFonts.filter fun font =>
      (baseFonts.zip baseWidths).any fun p =>
        getWidth ("'" ++ font ++ "', " ++ p.1) != p.2

theorem testFonts_nodup : testFonts.Nodup := by decide

/-- Claim C8: `detectFonts` returns an order-preserving, duplicate-free
subsequence of the fixed 29-entry candidate list, and the empty list when no
2D drawing context is available. -/
theorem claimC8_detectFonts (e : FontEnv) :
    List.Sublist (detectFonts e) testFonts ∧
    (detectFonts e).Nodup ∧
    testFonts.length = 29 ∧
    (e.ctxAvailable = false → detectFonts e = []) := by
  unfold detectFonts
  split
  · exact ⟨List.nil_sublist _, List.nodup_nil, by decide, fun _ => rfl⟩
  · refine ⟨List.filter_sublist _, (List.filter_sublist _).nodup testFonts_nodup,
      by decide, fun h => ?_⟩
    rename_i hc
    simp [h] at hc

theorem claimC8_witness : detectFonts ⟨false, fun _ => 0⟩ = [] :=
  (claimC8_detectFonts ⟨false, fun _ => 0⟩).2.2.2 rfl

/-!
Latency/speed probe.  The environment gives the outcome of each timed HEAD
sample: `env i j` is the measured latency of sample `j` for server `i`, or
none when that fetch throws.  Servers are probed sequentially; the final
per-server records are what claim C5 is about.
-/

structure ServerDef where
  url : String
  server : String
  location : String

inductive SpeedStatus where
  | pending
  | testing
  | done
  | error
deriving DecidableEq

structure SpeedTestResult where
  server : String
  location : String
  latency : Option Nat
  status : SpeedStatus
deriving DecidableEq

/-- The fixed server table of `runSpeedTests`, in source order. -/
def speedServers : List ServerDef :=
  [⟨"https://www.google.com/favicon.ico", "Google", "Global CDN"⟩,
   ⟨"https://www.cloudflare.com/favicon.ico", "Cloudflare", "Global CDN"⟩,
   ⟨"https://aws.amazon.com/favicon.ico", "Amazon AWS", "US East"⟩,
   ⟨"https://azure.microsoft.com/favicon.ico", "Microsoft Azure", "Global"⟩,
   ⟨"https://github.com/favicon.ico", "GitHub", "Global CDN"⟩]

def insertAsc (x : Nat) : List Nat → List Nat
  | [] => [x]
  | y :: ys => if x ≤ y then x :: y :: ys else y :: insertAsc x ys

/-- Ascending sort, modelling `latencies.sort((a, b) => a - b)`. -/
def sortAsc : List Nat → List Nat
  | [] => []
  | x :: xs => insertAsc x (sortAsc xs)

/-- The successful samples of server `i`, in sample order (3 samples taken). -/
def sampleLats (env : Nat → Nat → Option Nat) (i : Nat) : List Nat :=
  [env i 0, env i 1, env i 2].filterMap id

/-- Median of a sample list as the spec words it: the middle element of the
sorted samples (`sorted[floor(n/2)]`, the upper median for even n). -/
def median (l : List Nat) : Option Nat :=
  (sortAsc l).get? (l.length / 2)

/-- Final record for one server: with at least one successful sample, the
sorted middle sample and status done; otherwise status error, latency null. -/
def serverResult (env : Nat → Nat → Option Nat) (i : Nat) (s : ServerDef) :
    SpeedTestResult :=
  let lats := sampleLats env i
  if 0 < lats.length then
    { server := s.server, location := s.location,
      latency := (sortAsc lats).get? (lats.length / 2), status := SpeedStatus.done }
  else
    { server := s.server, location := s.location,
      latency := none, status := SpeedStatus.error }

/-- The sequential loop of `runSpeedTests` over the server table. -/
def runServers (env : Nat → Nat → Option Nat) : Nat → List ServerDef → List SpeedTestResult
  | _, [] => []
  | i, s :: rest => serverResult env i s :: runServers env (i + 1) rest

/-- `runSpeedTests` from src/utils/privacy.ts (final returned list). -/
def runSpeedTests (env : Nat → Nat → Option Nat) : List SpeedTestResult :=
  runServers env 0 speedServers

theorem runServers_get (env : Nat → Nat → Option Nat) :
    ∀ (l : List ServerDef) (i0 i : Nat) (s : ServerDef), l.get? i = some s →
      (runServers env i0 l).get? i = some (serverResult env (i0 + i) s) := by
  intro l
  induction l with
  | nil => intro i0 i s h; simp at h
  | cons a rest ih =>
    intro i0 i s h
    cases i with
    | zero =>
      obtain rfl : a = s := by injection h
      rfl
    | succ i =>
      have h2 : rest.get? i = some s := h
      have := ih (i0 + 1) i s h2
      rw [show i0 + (i + 1) = (i0 + 1) + i by omega]
      exact this

/-- Claim C5: for every server entry, if at least one of the 3 timed HEAD
samples succeeded, the recorded latency is the median of the successful
samples and the status is done; if none succeeded, the status is error and
the latency stays null. -/
theorem claimC5_runSpeedTests (env : Nat → Nat → Option Nat) (i : Nat)
    (s : ServerDef) (h : speedServers.get? i = some s) :
    ∃ r, (runSpeedTests env).get? i = some r ∧
      (sampleLats env i ≠ [] →
        r.status = SpeedStatus.done ∧ r.latency = median (sampleLats env i)) ∧
      (sampleLats env i = [] →
        r.status = SpeedStatus.error ∧ r.latency = none) := by
  refine ⟨serverResult env i s, ?_, ?_, ?_⟩
  · have := runServers_get env speedServers 0 i s h
    rw [show (0 : Nat) + i = i by omega] at this
    exact this
  · intro hne
    simp only [serverResult, median]
    rw [if_pos (List.length_pos.mpr hne)]
    exact ⟨rfl, rfl⟩
  · intro he
    simp only [serverResult, he]
    simp

/-- Environment in which every sample succeeds with latency 10. -/
def envSpeed : Nat → Nat → Option Nat := fun _ _ => some 10

theorem claimC5_witness :
    ∃ r, (runSpeedTests envSpeed).get? 0 = some r ∧
      (sampleLats envSpeed 0 ≠ [] →
        r.status = SpeedStatus.done ∧ r.latency = median (sampleLats envSpeed 0)) ∧
      (sampleLats envSpeed 0 = [] →
        r.status = SpeedStatus.error ∧ r.latency = none) :=
  claimC5_runSpeedTests envSpeed 0
    ⟨"https://www.google.com/favicon.ico", "Google", "Global CDN"⟩ rfl
